import Mathlib

/-!
Verification of the OmadaSentimentApp dashboard (`src/app.py`).

The app loads a CSV of reviews, calls an external collaborator
`analyze_sentiment` that returns a result table with columns
`bucket`, `label`, `confidence`, and then:
  * pivots the result table: `result_df.groupby('bucket')['label']
    .value_counts().unstack(fill_value=0)` (app.py line 80);
  * adds derived columns `total`, `positive_rate`, `negative_rate`,
    `sentiment_score` (lines 86-89);
  * sorts ascending by `sentiment_score` (line 90).

We embed the result table as a `List Row` and the derived table as a
`List SummaryRow`.  Counts are natural numbers; the rates are `Option ℚ`
where `none` models the floating NaN that pandas produces for the
unguarded `0 / 0` division (a bucket with neither POSITIVE nor NEGATIVE
rows).  pandas `sort_values` places NaN last (`na_position='last'`),
which the order `scoreLE` reflects by treating `none` as greatest.
The UI control flow around the rendering calls and around loading the
default CSV is embedded as small total functions producing the list of
UI actions taken.
-/

/-- One row of the sentiment result table returned by `analyze_sentiment`:
columns `bucket`, `label`, `confidence`. -/
structure Row where
  bucket : String
  label : String
  confidence : ℚ
deriving Repr, DecidableEq

/-- Number of input rows with the given bucket and label: one cell of the
pivot `groupby('bucket')['label'].value_counts().unstack(fill_value=0)`
(app.py line 80); combinations absent from the input get count 0. -/
def countBL (rows : List Row) (b l : String) : ℕ :=
  rows.countP (fun r => r.bucket == b && r.label == l)

/-- Whether the label value occurs anywhere in the result table, i.e.
whether the pivot table has a column of that name. -/
def hasLabel (rows : List Row) (l : String) : Bool :=
  rows.any (fun r => r.label == l)

/-- `sentiment_summary.get(l, 0)` of app.py lines 86-88: the count column
for label `l` when the pivot has it, and the scalar 0 otherwise. -/
def colGet (rows : List Row) (l b : String) : ℕ :=
  if hasLabel rows l then countBL rows b l else 0

/-- `total` column (app.py line 86):
`sentiment_summary.get('POSITIVE', 0) + sentiment_summary.get('NEGATIVE', 0)`. -/
def totalOf (rows : List Row) (b : String) : ℕ :=
  colGet rows "POSITIVE" b + colGet rows "NEGATIVE" b

/-- `positive_rate` column (app.py line 87):
`get('POSITIVE', 0) / total`.  `none` models the NaN from the
unguarded `0 / 0` when the bucket has no POSITIVE and no NEGATIVE rows. -/
def positiveRate (rows : List Row) (b : String) : Option ℚ :=
  if totalOf rows b = 0 then none
  else some ((colGet rows "POSITIVE" b : ℚ) / (totalOf rows b : ℚ))

/-- `negative_rate` column (app.py line 88): `get('NEGATIVE', 0) / total`. -/
def negativeRate (rows : List Row) (b : String) : Option ℚ :=
  if totalOf rows b = 0 then none
  else some ((colGet rows "NEGATIVE" b : ℚ) / (totalOf rows b : ℚ))

/-- `sentiment_score` column (app.py line 89):
`positive_rate - negative_rate`; NaN propagates. -/
def sentimentScore (rows : List Row) (b : String) : Option ℚ :=
  match positiveRate rows b, negativeRate rows b with
  | some p, some n => some (p - n)
  | _, _ => none

/-- The distinct bucket values, in the ascending order `groupby` uses:
the index of the pivot table, one entry per distinct `bucket`. -/
def bucketsOf (rows : List Row) : List String :=
  List.insertionSort (· ≤ ·) (rows.map Row.bucket).dedup

/-- The distinct label values: the columns of the pivot table, one per
distinct `label` (unstack sorts the column index ascending). -/
def labelsOf (rows : List Row) : List String :=
  List.insertionSort (· ≤ ·) (rows.map Row.label).dedup

/-- One row of the final summary table: the per-label counts from the
pivot plus the derived columns added at app.py lines 86-89. -/
structure SummaryRow where
  bucket : String
  counts : List (String × ℕ)
  total : ℕ
  positive_rate : Option ℚ
  negative_rate : Option ℚ
  sentiment_score : Option ℚ
deriving Repr, DecidableEq

/-- The summary row the app computes for one bucket. -/
def summaryRowFor (rows : List Row) (b : String) : SummaryRow :=
  { bucket := b
    counts := (labelsOf rows).map (fun l => (l, countBL rows b l))
    total := totalOf rows b
    positive_rate := positiveRate rows b
    negative_rate := negativeRate rows b
    sentiment_score := sentimentScore rows b }

/-- The pivot table with the derived columns, before the final sort:
one row per distinct bucket (app.py lines 80, 86-89). -/
def pivotTable (rows : List Row) : List SummaryRow :=
  (bucketsOf rows).map (summaryRowFor rows)

/-- Comparison of two `sentiment_score` values as `sort_values` orders
them: numeric ascending, NaN (here `none`) last. -/
def keyLE (a b : Option ℚ) : Prop :=
  match a, b with
  | none, none => True
  | none, some _ => False
  | some _, none => True
  | some x, some y => x ≤ y

instance : DecidableRel keyLE := fun a b =>
  match a, b with
  | none, none => isTrue trivial
  | none, some _ => isFalse id
  | some _, none => isTrue trivial
  | some x, some y => inferInstanceAs (Decidable (x ≤ y))

/-- Row order of the final sort: ascending by `sentiment_score`. -/
def scoreLE (a b : SummaryRow) : Prop :=
  keyLE a.sentiment_score b.sentiment_score

instance : DecidableRel scoreLE := fun a b =>
  inferInstanceAs (Decidable (keyLE a.sentiment_score b.sentiment_score))

instance : IsTotal SummaryRow scoreLE where
  total a b := by
    unfold scoreLE
    cases a.sentiment_score <;> cases b.sentiment_score
    all_goals simp [keyLE]
    all_goals exact le_total _ _

instance : IsTrans SummaryRow scoreLE where
  trans a b c := by
    unfold scoreLE
    cases a.sentiment_score <;> cases b.sentiment_score <;>
      cases c.sentiment_score
    all_goals simp [keyLE]
    all_goals exact le_trans

/-- The final summary table:
`sentiment_summary.sort_values(by='sentiment_score', ascending=True)`
(app.py line 90).  `sort_values` uses its default `kind='quicksort'`
(numpy introsort), which guarantees only a permutation of the rows that
is ascending in the key — it fixes no order among rows of equal score.
The embedding has to pick one concrete such permutation to stay
executable and uses insertion sort; no theorem relies on the tie order
this particular choice produces (insertion sort is stable, the
program's quicksort need not be). -/
def sentiment_summary (rows : List Row) : List SummaryRow :=
  List.insertionSort scoreLE (pivotTable rows)

/-- The spec's example input: `[(bucket="price", label="POSITIVE"),
(bucket="price", label="POSITIVE"), (bucket="price", label="NEGATIVE")]`. -/
def exampleRows : List Row :=
  [⟨"price", "POSITIVE", 9/10⟩, ⟨"price", "POSITIVE", 9/10⟩,
   ⟨"price", "NEGATIVE", 9/10⟩]

/-- A result table whose only bucket has neither POSITIVE nor NEGATIVE
rows, so its `total` is 0 and the rate divisions divide by zero. -/
def neutralRows : List Row :=
  [⟨"support", "NEUTRAL", 1/2⟩]

/-- `sentiment_score` is a defined number within `[-1, 1]`. -/
def scoreInRange (o : Option ℚ) : Prop :=
  ∃ q, o = some q ∧ -1 ≤ q ∧ q ≤ 1

-- Helper lemmas --------------------------------------------------------

/-- `get(l, 0)` and the pivot cell agree: when the label occurs nowhere,
every one of its per-bucket counts is 0 anyway. -/
theorem colGet_eq_countBL (rows : List Row) (l b : String) :
    colGet rows l b = countBL rows b l := by
  unfold colGet
  split
  · rfl
  · rename_i h
    unfold hasLabel at h
    unfold countBL
    symm
    rw [List.countP_eq_zero]
    intro r hr
    simp only [Bool.and_eq_true, beq_iff_eq]
    rintro ⟨-, hlab⟩
    exact h (List.any_eq_true.mpr ⟨r, hr, by simp [hlab]⟩)

theorem totalOf_eq (rows : List Row) (b : String) :
    totalOf rows b = countBL rows b "POSITIVE" + countBL rows b "NEGATIVE" := by
  unfold totalOf
  rw [colGet_eq_countBL, colGet_eq_countBL]

/-- When the total is nonzero the two rates are defined and sum to 1,
because the total is exactly the sum of the two numerators. -/
theorem rateSum_of_total_ne_zero (rows : List Row) (b : String)
    (h : totalOf rows b ≠ 0) :
    ∃ p n, positiveRate rows b = some p ∧ negativeRate rows b = some n ∧
      p + n = 1 := by
  refine ⟨_, _, by rw [positiveRate, if_neg h], by rw [negativeRate, if_neg h], ?_⟩
  rw [div_add_div_same]
  have hsum : (colGet rows "POSITIVE" b : ℚ) + (colGet rows "NEGATIVE" b : ℚ) =
      (totalOf rows b : ℚ) := by
    rw [totalOf]
    push_cast
    ring
  rw [hsum, div_self (Nat.cast_ne_zero.mpr h)]

/-- Arithmetic core of the score bound: a difference over its own sum of
nonnegative parts lies in `[-1, 1]`. -/
theorem sub_div_add_self_bounds (p n : ℚ) (hp : 0 ≤ p) (hn : 0 ≤ n)
    (h : 0 < p + n) : -1 ≤ (p - n) / (p + n) ∧ (p - n) / (p + n) ≤ 1 := by
  constructor
  · rw [neg_le, ← neg_div, div_le_one h]
    linarith
  · rw [div_le_one h]
    linarith

/-- The map taking a summary row back to its bucket recovers the pivot
index. -/
theorem pivotTable_map_bucket (rows : List Row) :
    (pivotTable rows).map SummaryRow.bucket = bucketsOf rows := by
  rw [pivotTable, List.map_map]
  have hid : SummaryRow.bucket ∘ summaryRowFor rows = id := rfl
  rw [hid, List.map_id]

theorem nodup_bucketsOf (rows : List Row) : (bucketsOf rows).Nodup :=
  (List.perm_insertionSort _ _).symm.nodup ((rows.map Row.bucket).nodup_dedup)

theorem mem_bucketsOf (rows : List Row) (b : String) :
    b ∈ bucketsOf rows ↔ b ∈ rows.map Row.bucket := by
  rw [bucketsOf, (List.perm_insertionSort _ _).mem_iff, List.mem_dedup]

theorem nodup_labelsOf (rows : List Row) : (labelsOf rows).Nodup :=
  (List.perm_insertionSort _ _).symm.nodup ((rows.map Row.label).nodup_dedup)

theorem mem_labelsOf (rows : List Row) (l : String) :
    l ∈ labelsOf rows ↔ l ∈ rows.map Row.label := by
  rw [labelsOf, (List.perm_insertionSort _ _).mem_iff, List.mem_dedup]

-- Claim theorems -------------------------------------------------------

/-- C1: the summary computation adds the derived columns per the spec's
formulas — `total` is the POSITIVE count plus the NEGATIVE count,
`positive_rate = POSITIVE / total`, `negative_rate = NEGATIVE / total`,
`sentiment_score = positive_rate - negative_rate` — and on the spec's
example input `[(price, POSITIVE), (price, POSITIVE), (price, NEGATIVE)]`
the bucket "price" gets POSITIVE=2, NEGATIVE=1, total=3,
positive_rate=2/3, negative_rate=1/3, sentiment_score=1/3. -/
theorem summary_adds_spec_columns (rows : List Row) (b : String)
    (h : totalOf rows b ≠ 0) :
    (totalOf rows b = countBL rows b "POSITIVE" + countBL rows b "NEGATIVE" ∧
     positiveRate rows b =
       some ((countBL rows b "POSITIVE" : ℚ) / (totalOf rows b : ℚ)) ∧
     negativeRate rows b =
       some ((countBL rows b "NEGATIVE" : ℚ) / (totalOf rows b : ℚ)) ∧
     sentimentScore rows b =
       some ((countBL rows b "POSITIVE" : ℚ) / (totalOf rows b : ℚ) -
             (countBL rows b "NEGATIVE" : ℚ) / (totalOf rows b : ℚ))) ∧
    (countBL exampleRows "price" "POSITIVE" = 2 ∧
     countBL exampleRows "price" "NEGATIVE" = 1 ∧
     totalOf exampleRows "price" = 3 ∧
     positiveRate exampleRows "price" = some (2/3) ∧
     negativeRate exampleRows "price" = some (1/3) ∧
     sentimentScore exampleRows "price" = some (1/3)) := by
  have hpr : positiveRate rows b =
      some ((countBL rows b "POSITIVE" : ℚ) / (totalOf rows b : ℚ)) := by
    rw [positiveRate, if_neg h, colGet_eq_countBL]
  have hnr : negativeRate rows b =
      some ((countBL rows b "NEGATIVE" : ℚ) / (totalOf rows b : ℚ)) := by
    rw [negativeRate, if_neg h, colGet_eq_countBL]
  have hT : totalOf exampleRows "price" = 3 := by decide
  have hP : colGet exampleRows "POSITIVE" "price" = 2 := by decide
  have hN : colGet exampleRows "NEGATIVE" "price" = 1 := by decide
  refine ⟨⟨totalOf_eq rows b, hpr, hnr, by rw [sentimentScore, hpr, hnr]⟩,
    by decide, by decide, hT, ?_, ?_, ?_⟩
  · rw [positiveRate, hT, hP]
    norm_num
  · rw [negativeRate, hT, hN]
    norm_num
  · rw [sentimentScore, positiveRate, negativeRate, hT, hP, hN]
    norm_num

/-- Witness for C1 at the spec's example input. -/
theorem summary_adds_spec_columns_witness :
    totalOf exampleRows "price" =
      countBL exampleRows "price" "POSITIVE" +
        countBL exampleRows "price" "NEGATIVE" ∧
    sentimentScore exampleRows "price" = some (1/3) :=
  ⟨(summary_adds_spec_columns exampleRows "price" (by decide)).1.1,
   (summary_adds_spec_columns exampleRows "price" (by decide)).2.2.2.2.2.2⟩

/-- C2: the pivot has exactly one row per distinct bucket value and
exactly one column per distinct label value, and every bucket-label
combination absent from the input gets the count 0. -/
theorem pivot_rows_cols_zero_fill (rows : List Row) :
    ((pivotTable rows).map SummaryRow.bucket).Nodup ∧
    (∀ b, b ∈ (pivotTable rows).map SummaryRow.bucket ↔
      b ∈ rows.map Row.bucket) ∧
    (∀ s ∈ pivotTable rows, s.counts.map Prod.fst = labelsOf rows) ∧
    (labelsOf rows).Nodup ∧
    (∀ l, l ∈ labelsOf rows ↔ l ∈ rows.map Row.label) ∧
    (∀ s ∈ pivotTable rows, ∀ l ∈ labelsOf rows,
      (l, countBL rows s.bucket l) ∈ s.counts) ∧
    (∀ b l, countBL rows b l = 0 ↔
      ∀ r ∈ rows, ¬(r.bucket = b ∧ r.label = l)) := by
  refine ⟨?_, ?_, ?_, nodup_labelsOf rows, mem_labelsOf rows, ?_, ?_⟩
  · rw [pivotTable_map_bucket]
    exact nodup_bucketsOf rows
  · intro b
    rw [pivotTable_map_bucket]
    exact mem_bucketsOf rows b
  · intro s hs
    rcases List.mem_map.mp hs with ⟨b, -, rfl⟩
    rw [show (summaryRowFor rows b).counts =
          (labelsOf rows).map (fun l => (l, countBL rows b l)) from rfl,
      List.map_map]
    have hid : (Prod.fst ∘ fun l => (l, countBL rows b l)) = id := rfl
    rw [hid, List.map_id]
  · intro s hs l hl
    rcases List.mem_map.mp hs with ⟨b, -, rfl⟩
    exact List.mem_map.mpr ⟨l, hl, rfl⟩
  · intro b l
    rw [countBL, List.countP_eq_zero]
    simp

/-- C3: when `total > 0` and the input uses no labels other than
POSITIVE and NEGATIVE, the two rates sum to 1. -/
theorem rates_sum_to_one (rows : List Row) (b : String)
    (htot : 0 < totalOf rows b)
    (_hlab : rows.all
      (fun r => r.label == "POSITIVE" || r.label == "NEGATIVE") = true) :
    ∃ p n, positiveRate rows b = some p ∧ negativeRate rows b = some n ∧
      p + n = 1 :=
  rateSum_of_total_ne_zero rows b htot.ne'

/-- Witness for C3 at the spec's example input. -/
theorem rates_sum_to_one_witness :
    ∃ p n, positiveRate exampleRows "price" = some p ∧
      negativeRate exampleRows "price" = some n ∧ p + n = 1 :=
  rates_sum_to_one exampleRows "price" (by decide) (by decide)

/-- What line 90 does guarantee of the final table: it is a permutation
of the pivot table ascending in `sentiment_score` (undefined NaN scores
last, as `sort_values` places them).  Tie order among equal scores is
left open by the program's default unstable quicksort, so nothing about
it is stated here. -/
theorem sentiment_summary_sorted_perm (rows : List Row) :
    (sentiment_summary rows).Sorted scoreLE ∧
    List.Perm (sentiment_summary rows) (pivotTable rows) :=
  ⟨List.sorted_insertionSort scoreLE _, List.perm_insertionSort scoreLE _⟩

/-- C5 counterexample: a result table whose only rows carry the label
NEUTRAL yields a summary row for bucket "support" whose
`sentiment_score` is the undefined NaN (`none`), which does not lie
within `[-1, 1]`. -/
theorem sentiment_score_out_of_range_cex :
    summaryRowFor neutralRows "support" ∈ sentiment_summary neutralRows ∧
    (summaryRowFor neutralRows "support").sentiment_score = none ∧
    ¬ scoreInRange (summaryRowFor neutralRows "support").sentiment_score := by
  have hnone : (summaryRowFor neutralRows "support").sentiment_score = none := by
    decide
  refine ⟨by decide, hnone, ?_⟩
  rintro ⟨q, hq, -⟩
  rw [hnone] at hq
  exact Option.noConfusion hq

/-- C5 amended: for every bucket whose `total` is positive, the
`sentiment_score` is a defined number within `[-1, 1]`. -/
theorem sentiment_score_in_range (rows : List Row) (b : String)
    (htot : 0 < totalOf rows b) :
    scoreInRange (sentimentScore rows b) := by
  have hne : totalOf rows b ≠ 0 := htot.ne'
  have hT : (0 : ℚ) < (totalOf rows b : ℚ) := by exact_mod_cast htot
  have hsum : (colGet rows "POSITIVE" b : ℚ) + (colGet rows "NEGATIVE" b : ℚ) =
      (totalOf rows b : ℚ) := by
    rw [totalOf]
    push_cast
    ring
  have hbounds := sub_div_add_self_bounds (colGet rows "POSITIVE" b : ℚ)
    (colGet rows "NEGATIVE" b : ℚ) (Nat.cast_nonneg _) (Nat.cast_nonneg _)
    (by rw [hsum]; exact hT)
  refine ⟨(colGet rows "POSITIVE" b : ℚ) / (totalOf rows b : ℚ) -
      (colGet rows "NEGATIVE" b : ℚ) / (totalOf rows b : ℚ), ?_, ?_, ?_⟩
  · rw [sentimentScore, positiveRate, negativeRate, if_neg hne, if_neg hne]
  · rw [div_sub_div_same, ← hsum]
    exact hbounds.1
  · rw [div_sub_div_same, ← hsum]
    exact hbounds.2

/-- Witness for amended C5 at the spec's example input. -/
theorem sentiment_score_in_range_witness :
    scoreInRange (sentimentScore exampleRows "price") :=
  sentiment_score_in_range exampleRows "price" (by decide)

/-- C6: the rate computation has no guard against `total = 0`: on a
result table whose only bucket "support" carries only the label NEUTRAL,
that bucket's POSITIVE and NEGATIVE counts are both 0, `total` is 0, and
the two rate divisions divide by zero, leaving both rates (and hence the
score) undefined. -/
theorem rate_division_unguarded :
    "support" ∈ bucketsOf neutralRows ∧
    colGet neutralRows "POSITIVE" "support" = 0 ∧
    colGet neutralRows "NEGATIVE" "support" = 0 ∧
    totalOf neutralRows "support" = 0 ∧
    positiveRate neutralRows "support" = none ∧
    negativeRate neutralRows "support" = none ∧
    sentimentScore neutralRows "support" = none := by
  decide

/-- C9: whenever a bucket's `total` is positive the two rates sum to 1
regardless of which other labels occur, and appending rows whose labels
are neither POSITIVE nor NEGATIVE changes none of `total`,
`positive_rate`, `negative_rate`, `sentiment_score` for any bucket. -/
theorem other_labels_never_affect_rates (rows : List Row) (b : String)
    (htot : 0 < totalOf rows b) (extra : List Row)
    (hextra : extra.all
      (fun r => !(r.label == "POSITIVE") && !(r.label == "NEGATIVE")) = true) :
    (∃ p n, positiveRate rows b = some p ∧ negativeRate rows b = some n ∧
      p + n = 1) ∧
    totalOf (rows ++ extra) b = totalOf rows b ∧
    positiveRate (rows ++ extra) b = positiveRate rows b ∧
    negativeRate (rows ++ extra) b = negativeRate rows b ∧
    sentimentScore (rows ++ extra) b = sentimentScore rows b := by
  have hzero : ∀ l, l = "POSITIVE" ∨ l = "NEGATIVE" →
      countBL extra b l = 0 := by
    intro l hl
    rw [countBL, List.countP_eq_zero]
    intro r hr
    have hrl := List.all_eq_true.mp hextra r hr
    simp only [Bool.and_eq_true, Bool.not_eq_true', beq_eq_false_iff_ne,
      ne_eq] at hrl
    simp only [Bool.and_eq_true, beq_iff_eq, not_and]
    intro _ hlab
    rcases hl with rfl | rfl
    · exact hrl.1 hlab
    · exact hrl.2 hlab
  have hcnt : ∀ l, l = "POSITIVE" ∨ l = "NEGATIVE" →
      countBL (rows ++ extra) b l = countBL rows b l := by
    intro l hl
    rw [countBL, countBL, List.countP_append]
    have := hzero l hl
    rw [countBL] at this
    omega
  have hcolP : colGet (rows ++ extra) "POSITIVE" b = colGet rows "POSITIVE" b := by
    rw [colGet_eq_countBL, colGet_eq_countBL]
    exact hcnt _ (Or.inl rfl)
  have hcolN : colGet (rows ++ extra) "NEGATIVE" b = colGet rows "NEGATIVE" b := by
    rw [colGet_eq_countBL, colGet_eq_countBL]
    exact hcnt _ (Or.inr rfl)
  have htotal : totalOf (rows ++ extra) b = totalOf rows b := by
    rw [totalOf, totalOf, hcolP, hcolN]
  have hpr : positiveRate (rows ++ extra) b = positiveRate rows b := by
    rw [positiveRate, positiveRate, htotal, hcolP]
  have hnr : negativeRate (rows ++ extra) b = negativeRate rows b := by
    rw [negativeRate, negativeRate, htotal, hcolN]
  refine ⟨rateSum_of_total_ne_zero rows b htot.ne', htotal, hpr, hnr, ?_⟩
  rw [sentimentScore, sentimentScore, hpr, hnr]

/-- Witness for C9: the example table extended by a NEUTRAL row. -/
theorem other_labels_never_affect_rates_witness :
    totalOf (exampleRows ++ neutralRows) "price" = totalOf exampleRows "price" ∧
    sentimentScore (exampleRows ++ neutralRows) "price" =
      sentimentScore exampleRows "price" :=
  ⟨(other_labels_never_affect_rates exampleRows "price" (by decide)
      neutralRows (by decide)).2.1,
   (other_labels_never_affect_rates exampleRows "price" (by decide)
      neutralRows (by decide)).2.2.2.2⟩

-- UI control flow -----------------------------------------------------

/-- The user-visible actions the app can take after `analyze_sentiment`
returns (app.py lines 51-61 and 71-102). -/
inductive UIAction where
  | successMsg
  | histWarning
  | histogram
  | summaryTable
  | barChart
  | noClausesWarning
deriving Repr, DecidableEq

/-- `plot_confidence_histogram` (app.py lines 49-61): on a `None` or
empty table it warns and returns without plotting; otherwise it renders
the 20-bin confidence histogram. -/
def plot_confidence_histogram (sent_df : Option (List Row)) : List UIAction :=
  match sent_df with
  | none => [UIAction.histWarning]
  | some rows =>
      if rows.isEmpty then [UIAction.histWarning] else [UIAction.histogram]

/-- The branch after `analyze_sentiment` returns (app.py lines 71-102):
`if result_df is not None and not result_df.empty` show the success
message, the confidence histogram, the summary table and the bar chart;
otherwise a single "no relevant clauses" warning. -/
def renderAnalysis (result_df : Option (List Row)) : List UIAction :=
  match result_df with
  | some rows =>
      if !rows.isEmpty then
        UIAction.successMsg ::
          (plot_confidence_histogram (some rows) ++
            [UIAction.summaryTable, UIAction.barChart])
      else [UIAction.noClausesWarning]
  | none => [UIAction.noClausesWarning]

/-- C7: when the analysis result is `None` or empty the app emits the
warning and skips all three renderings, and in particular the
histogram helper is never reached, so no fault can arise from plotting
an empty table; the embedding is a total function, so the branch
terminates normally. -/
theorem empty_result_warns_and_skips (result_df : Option (List Row))
    (h : result_df = none ∨ result_df = some []) :
    renderAnalysis result_df = [UIAction.noClausesWarning] ∧
    UIAction.histogram ∉ renderAnalysis result_df ∧
    UIAction.summaryTable ∉ renderAnalysis result_df ∧
    UIAction.barChart ∉ renderAnalysis result_df ∧
    UIAction.histWarning ∉ renderAnalysis result_df := by
  rcases h with h | h
  · subst h
    decide
  · subst h
    decide

/-- Witness for C7 at the `None` result. -/
theorem empty_result_warns_and_skips_witness :
    renderAnalysis none = [UIAction.noClausesWarning] ∧
    UIAction.histogram ∉ renderAnalysis (none : Option (List Row)) ∧
    UIAction.summaryTable ∉ renderAnalysis (none : Option (List Row)) ∧
    UIAction.barChart ∉ renderAnalysis (none : Option (List Row)) ∧
    UIAction.histWarning ∉ renderAnalysis (none : Option (List Row)) :=
  empty_result_warns_and_skips none (Or.inl rfl)

/-- C10: the warning branch inside `plot_confidence_histogram` is
unreachable in this program: every run either takes the outer
"no relevant clauses" branch without calling the helper, or calls the
helper on a non-empty table and renders the histogram; the helper's own
warning never appears among the actions taken. -/
theorem hist_warning_branch_unreachable (result_df : Option (List Row)) :
    UIAction.histWarning ∉ renderAnalysis result_df ∧
    (renderAnalysis result_df = [UIAction.noClausesWarning] ∨
      UIAction.histogram ∈ renderAnalysis result_df) := by
  cases result_df with
  | none => exact ⟨by decide, Or.inl rfl⟩
  | some rows =>
    cases rows with
    | nil => exact ⟨by decide, Or.inl rfl⟩
    | cons r rs =>
      constructor
      · simp [renderAnalysis, plot_confidence_histogram]
      · right
        simp [renderAnalysis, plot_confidence_histogram]

-- CSV loading ---------------------------------------------------------

/-- The default CSV path (app.py line 24). -/
def DEFAULT_CSV : String := "data/processed/noom_google_clean.csv"

/-- The error message shown when the default file is missing
(app.py line 40). -/
def missingDefaultMsg : String :=
  "Default CSV not found at " ++ DEFAULT_CSV ++ ". Please upload a file."

/-- Outcome of `pd.read_csv` on a path: a table, a `FileNotFoundError`,
or any other exception (malformed CSV, permissions, ...). -/
inductive ReadOutcome where
  | ok (t : List (List String))
  | fileNotFound
  | otherError
deriving Repr, DecidableEq

/-- State after the default-CSV branch: the loaded table (`df`), the
error message shown, and whether an exception escaped unhandled. -/
structure LoadResult where
  df : Option (List (List String))
  errorMsg : Option String
  uncaughtFault : Bool
deriving Repr, DecidableEq

/-- The default-CSV branch (app.py lines 35-41): `pd.read_csv` under a
`try` whose only handler catches `FileNotFoundError`, setting `df` to
`None` and showing an error; any other exception propagates. -/
def useDefaultCSV (read_csv : String → ReadOutcome) : LoadResult :=
  match read_csv DEFAULT_CSV with
  | ReadOutcome.ok t =>
      { df := some t, errorMsg := none, uncaughtFault := false }
  | ReadOutcome.fileNotFound =>
      { df := none, errorMsg := some missingDefaultMsg, uncaughtFault := false }
  | ReadOutcome.otherError =>
      { df := none, errorMsg := none, uncaughtFault := true }

/-- C8: when the default CSV file is absent the app shows the
user-facing error message and leaves `df = None` with no unhandled
fault; any other read failure is not handled and propagates. -/
theorem missing_default_csv_handled (read_csv : String → ReadOutcome)
    (h : read_csv DEFAULT_CSV = ReadOutcome.fileNotFound) :
    (useDefaultCSV read_csv).df = none ∧
    (useDefaultCSV read_csv).errorMsg = some missingDefaultMsg ∧
    (useDefaultCSV read_csv).uncaughtFault = false ∧
    (useDefaultCSV (fun _ => ReadOutcome.otherError)).uncaughtFault = true := by
  rw [useDefaultCSV, h]
  exact ⟨rfl, rfl, rfl, rfl⟩

/-- Witness for C8 with a filesystem on which every read reports a
missing file. -/
theorem missing_default_csv_handled_witness :
    (useDefaultCSV (fun _ => ReadOutcome.fileNotFound)).df = none ∧
    (useDefaultCSV (fun _ => ReadOutcome.fileNotFound)).errorMsg =
      some missingDefaultMsg ∧
    (useDefaultCSV (fun _ => ReadOutcome.fileNotFound)).uncaughtFault = false ∧
    (useDefaultCSV (fun _ => ReadOutcome.otherError)).uncaughtFault = true :=
  missing_default_csv_handled (fun _ => ReadOutcome.fileNotFound) rfl
